import Mathlib

/-!
Verification of the text-analytics core of the Sentiment repository
(`analysis.py`).  The functions below are a shallow embedding of the Python
source: Python `str` becomes `String` (processed as `List Char`), Python
`float` becomes `ℚ` (all the arithmetic involved is exact decimal), and a
Python function that can raise an exception on some input returns `Option`
(`none` at exactly the inputs where the source raises).
-/

namespace Sentiment

/-- Characters treated as whitespace by Python `str.split()` with no
arguments, restricted to the ASCII range used throughout this repository. -/
def isPyWs (c : Char) : Bool :=
  c == ' ' || c == '\t' || c == '\n' || c == '\r' || c == '\x0b' || c == '\x0c'

/-- The 32 characters of Python `string.punctuation`, which
`str.translate(str.maketrans("", "", string.punctuation))` deletes. -/
def punctuationChars : List Char :=
  "!\"#$%&\x27()*+,-./:;<=>?@[\\]^_\x60\x7b|\x7d~".toList

/-- Lowercasing of a character sequence (ASCII case mapping, as in
`str.lower()` on the ASCII range). -/
def lowerL (cs : List Char) : List Char := cs.map Char.toLower

/-- Deletion of every punctuation character, modelling
`text.translate(str.maketrans("", "", string.punctuation))`. -/
def stripPunct (cs : List Char) : List Char :=
  cs.filter (fun c => !punctuationChars.contains c)

/-- Collects the maximal runs of characters satisfying `keep`, discarding
everything else.  With `keep = not whitespace` this is Python
`str.split()`; with `keep = word character` it is the word-boundary
token extraction of `re.findall(r"\b...\b", text)`. -/
def splitRuns (keep : Char → Bool) : List Char → List (List Char)
  | [] => []
  | c :: cs =>
    if keep c then
      match cs with
      | [] => [[c]]
      | c2 :: _ =>
        if keep c2 then
          match splitRuns keep cs with
          | [] => [[c]]
          | t :: ts => (c :: t) :: ts
        else [c] :: splitRuns keep cs
    else splitRuns keep cs

/-- Python `text.split()`: maximal runs of non-whitespace characters. -/
def wsSplit (cs : List Char) : List (List Char) :=
  splitRuns (fun c => !isPyWs c) cs

/-- Sentence delimiters of the Fog-Index computation. -/
def isSentDelim (c : Char) : Bool := c == '.' || c == '!' || c == '?'

/-- Python `re.split(r"[.!?]+", text)`: splits on maximal runs of the
three sentence delimiters, keeping empty segments (so the result always
has at least one element). -/
def sentSplit : List Char → List (List Char)
  | [] => [[]]
  | c :: cs =>
    if isSentDelim c then
      match cs with
      | [] => [[], []]
      | c2 :: _ => if isSentDelim c2 then sentSplit cs else [] :: sentSplit cs
    else
      match sentSplit cs with
      | [] => [[c]]
      | s :: ss => (c :: s) :: ss

/-- Word lists are given as `List String`; tokens are `List Char`. -/
def toL (ws : List String) : List (List Char) := ws.map String.toList

/-- The token sequence shared by the Counting strategy and the
readability metrics: lowercase, delete punctuation, split on whitespace. -/
def pyTokens (text : String) : List (List Char) :=
  wsSplit (stripPunct (lowerL text.toList))

/-- Tokens of `pyTokens` that survive stop-word removal
(`[word for word in text.split() if word not in stop_words]`). -/
def filteredWords (text : String) (stop : List String) : List (List Char) :=
  (pyTokens text).filter (fun w => !(toL stop).contains w)

/-- The vowel set `"aeiouy"` of the syllable heuristic. -/
def isVowel (c : Char) : Bool :=
  c == 'a' || c == 'e' || c == 'i' || c == 'o' || c == 'u' || c == 'y'

/-- The index-based vowel-group loop of the source
(`for i, char in enumerate(word): if char in vowels and (i == 0 or
word[i-1] not in vowels): syllable_count += 1`). -/
def srcVG (w : List Char) : Nat :=
  (List.range w.length).countP
    (fun i => isVowel (w.getD i ' ') && (i == 0 || !isVowel (w.getD (i - 1) ' ')))

/-- Recursive formulation of vowel-group starts, used as the independent
specification-side count: a vowel whose predecessor is not a vowel. -/
def vgcFrom (prev : Char) : List Char → Nat
  | [] => 0
  | c :: cs => (if isVowel c && !isVowel prev then 1 else 0) + vgcFrom c cs

/-- Recursive vowel-group-start count of a whole word. -/
def vgcRec : List Char → Nat
  | [] => 0
  | c :: cs => (if isVowel c then 1 else 0) + vgcFrom c cs

/-- Pre-floor syllable accumulation of the source: the loop count, minus
one when the word ends in "e" whose second-to-last character is a vowel.
Only used where the source guards the length (so `getD` never hits its
default in those uses). -/
def srcPreFloor (w : List Char) : Int :=
  (srcVG w : Int) -
    (if w.getLast? == some 'e' && isVowel (w.getD (w.length - 2) ' ') then 1 else 0)

/-- Specification-side pre-floor count, written from the spec wording:
vowel-group starts, decremented by one when the word ends in "e" with a
vowel as second-to-last character, without the floor-at-1 clamp. -/
def specPreFloor (w : List Char) : Int :=
  (vgcRec w : Int) -
    (if w.getLast? == some 'e' && (w[w.length - 2]?).any isVowel then 1 else 0)

/-- Complex-word test of `count_complex_words`: the per-word body runs only
under `if len(word) > 2`, and counts the word when the adjusted pre-floor
accumulation reaches 3. -/
def isComplexWord (w : List Char) : Bool :=
  decide (2 < w.length) && decide (3 ≤ srcPreFloor w)

/-- Embedding of `count_complex_words(text, stop_words)`. -/
def count_complex_words (text : String) (stop : List String) : Nat :=
  if text = "" then 0
  else ((filteredWords text stop).filter isComplexWord).length

/-- Embedding of `calculate_polarity_subjectivity(text, stop_words,
positive_words, negative_words)`.  The subjective count of the source is
`sum(1 for word in words)`, i.e. the length of the filtered word list. -/
def calculate_polarity_subjectivity
    (text : String) (stop pos neg : List String) : ℚ × ℚ :=
  if text = "" then (0, 0)
  else if (filteredWords text stop).length = 0 then (0, 0)
  else
    (((((filteredWords text stop).filter (fun w => (toL pos).contains w)).length : ℚ) -
        ((((filteredWords text stop).filter (fun w => (toL neg).contains w)).length : ℚ))) /
      ((filteredWords text stop).length : ℚ),
     ((filteredWords text stop).length : ℚ) / ((filteredWords text stop).length : ℚ))

/-- Embedding of `calculate_fog_index(text, stop_words)`.  The source
guards `total_sentences == 0` (unreachable, `re.split` never returns an
empty list) but does not guard `total_words == 0`: in that case
`(complex_words / total_words) * 100` raises `ZeroDivisionError`, modelled
as `none`.  The word count here is the raw whitespace split of the
lowercased text, with no punctuation stripping and no stop-word removal. -/
def calculate_fog_index (text : String) (stop : List String) : Option ℚ :=
  if text = "" then some 0
  else if (sentSplit text.toList).length = 0 then some 0
  else if (wsSplit (lowerL text.toList)).length = 0 then none
  else some ((2 / 5 : ℚ) *
    (((wsSplit (lowerL text.toList)).length : ℚ) / ((sentSplit text.toList).length : ℚ) +
      ((count_complex_words text stop : ℚ) /
        ((wsSplit (lowerL text.toList)).length : ℚ)) * 100))

/-- Embedding of `count_words(text, stop_words)`. -/
def count_words (text : String) (stop : List String) : Nat :=
  if text = "" then 0 else (filteredWords text stop).length

/-- Embedding of `count_stop_words(text, stop_words)`: same lowercasing,
punctuation deletion and whitespace split, counting the tokens that ARE in
the stop list. -/
def count_stop_words (text : String) (stop : List String) : Nat :=
  if text = "" then 0
  else ((pyTokens text).filter (fun w => (toL stop).contains w)).length

/-- Embedding of `count_syllables(word)` on a character list.  When the
word ends in "e" and has fewer than two characters (the word "e"),
`word[-2]` raises `IndexError`, modelled as `none`; otherwise the
pre-floor accumulation is floored at 1. -/
def countSyllablesL (w : List Char) : Option Int :=
  if w.getLast? == some 'e' && decide (w.length < 2) then none
  else some (if 0 < srcPreFloor w then srcPreFloor w else 1)

/-- Embedding of `count_syllables(word)`. -/
def count_syllables (word : String) : Option Int :=
  countSyllablesL word.toList

/-- Embedding of `calculate_average_syllables_per_word(text, stop_words)`:
sums `count_syllables` over the filtered words (propagating the
`IndexError` of the word "e"), then divides, returning 0.0 on an empty
word list. -/
def calculate_average_syllables_per_word
    (text : String) (stop : List String) : Option ℚ :=
  if text = "" then some 0
  else
    match (filteredWords text stop).mapM countSyllablesL with
    | none => none
    | some sylls =>
        if (filteredWords text stop).length = 0 then some 0
        else some ((sylls.sum : ℚ) / ((filteredWords text stop).length : ℚ))

/-- The fixed pronoun alternation of `count_personal_pronouns`. -/
def pronounWords : List String :=
  ["i", "me", "my", "mine", "you", "your", "yours", "he", "she", "him",
   "her", "his", "hers", "it", "its", "we", "us", "our", "ours", "they",
   "them", "their", "theirs"]

/-- Python regex word characters (`\w`), ASCII range. -/
def isWordChar (c : Char) : Bool := c.isAlphanum || c == '_'

/-- Embedding of `count_personal_pronouns(text)`: case-insensitive
whole-word matches of the pronoun alternation over the raw text.  A
`\b(...)\b` match of an all-word-character alternative is exactly a
maximal word-character run equal to one of the alternatives. -/
def count_personal_pronouns (text : String) : Nat :=
  if text = "" then 0
  else ((splitRuns isWordChar text.toList).filter
    (fun w => (toL pronounWords).contains (lowerL w))).length

/-- Embedding of `calculate_average_word_length(text, stop_words)`. -/
def calculate_average_word_length (text : String) (stop : List String) : ℚ :=
  if text = "" then 0
  else if (filteredWords text stop).length = 0 then 0
  else (((filteredWords text stop).map List.length).sum : ℚ) /
    ((filteredWords text stop).length : ℚ)

/-- Embedding of `analyze_sentiment(polarity)` (thresholds ±0.2). -/
def analyze_sentiment (polarity : ℚ) : String :=
  if (1 / 5 : ℚ) < polarity then "Positive"
  else if polarity < -(1 / 5 : ℚ) then "Negative"
  else "Neutral"

/-- The aggregated result record computed by the analysis block of
`main()` (fields in the order they are computed there). -/
structure AnalysisResult where
  polarity : ℚ
  subjectivity : ℚ
  fog_index : Option ℚ
  complex_word_count : Nat
  word_count : Nat
  average_syllables_per_word : Option ℚ
  personal_pronoun_count : Nat
  average_word_length : ℚ
  average_sentence_length : ℚ
  percentage_complex_words : ℚ
  stop_word_count : Nat
  sentiment : String
  deriving DecidableEq

/-- Embedding of the analysis block of `main()`: composes every metric
function on one text and one triple of word lists.  The average sentence
length there is `len(text.split()) / len(re.split(r"[.!?]+", text))`
guarded by a positivity test, and the complex-word percentage is guarded
by `if word_count`. -/
def analyze (text : String) (stop pos neg : List String) : AnalysisResult :=
  ⟨(calculate_polarity_subjectivity text stop pos neg).1,
   (calculate_polarity_subjectivity text stop pos neg).2,
   calculate_fog_index text stop,
   count_complex_words text stop,
   count_words text stop,
   calculate_average_syllables_per_word text stop,
   count_personal_pronouns text,
   calculate_average_word_length text stop,
   (if 0 < (sentSplit text.toList).length then
      ((wsSplit text.toList).length : ℚ) / ((sentSplit text.toList).length : ℚ)
    else 0),
   (if count_words text stop ≠ 0 then
      ((count_complex_words text stop : ℚ) / (count_words text stop : ℚ)) * 100
    else 0),
   count_stop_words text stop,
   analyze_sentiment (calculate_polarity_subjectivity text stop pos neg).1⟩

/-- Modelled from the spec: negation markers of the Weighted-Lexicon
strategy (§4.2); that strategy is not present under `src/`, where only the
Counting strategy exists. -/
def negationMarkers : List String := ["not", "n\x27t", "no"]

/-- Modelled from the spec: intensifier markers of the Weighted-Lexicon
strategy (§4.2). -/
def intensifierWords : List String := ["very", "extremely", "really"]

/-- Modelled from the spec: word-boundary tokenization (§4.1) — lowercase
the text, then extract maximal runs of word characters; punctuation acts
as separator only. -/
def wlTokens (text : String) : List String :=
  (splitRuns isWordChar (lowerL text.toList)).map String.mk

/-- Modelled from the spec: the token loop of the Weighted-Lexicon
strategy (§4.2).  A lexicon word (that is not a marker) adds its weight,
sign-inverted under the negation flag, and resets the flag; a negation
marker sets the flag; an intensifier whose next token is a lexicon word
adds half of that word's raw weight as a bonus; any other token resets the
flag. -/
def wlLoop (lex : List (String × ℚ)) : Bool → List String → ℚ
  | _, [] => 0
  | negFlag, t :: rest =>
    if (lex.lookup t).isSome && !negationMarkers.contains t &&
        !intensifierWords.contains t then
      (if negFlag then -((lex.lookup t).getD 0) else (lex.lookup t).getD 0) +
        wlLoop lex false rest
    else if negationMarkers.contains t then wlLoop lex true rest
    else if intensifierWords.contains t &&
        (rest.head?.bind (fun nx => lex.lookup nx)).isSome then
      (rest.head?.bind (fun nx => lex.lookup nx)).getD 0 / 2 + wlLoop lex negFlag rest
    else wlLoop lex false rest

/-- Modelled from the spec: running score of the Weighted-Lexicon
strategy, negation flag initially false. -/
def weighted_lexicon_raw (text : String) (lex : List (String × ℚ)) : ℚ :=
  wlLoop lex false (wlTokens text)

/-- Modelled from the spec: final Weighted-Lexicon score — running score
divided by total token count, 0.0 when there are no tokens. -/
def weighted_lexicon_final (text : String) (lex : List (String × ℚ)) : ℚ :=
  if (wlTokens text).length = 0 then 0
  else weighted_lexicon_raw text lex / ((wlTokens text).length : ℚ)

/-- Modelled from the spec: Weighted-Lexicon label, using the same ±0.2
thresholds as the Counting strategy. -/
def weighted_lexicon_label (text : String) (lex : List (String × ℚ)) : String :=
  analyze_sentiment (weighted_lexicon_final text lex)

/-- The example lexicon of the spec: love ↦ 0.9, amazing ↦ 0.9, every
other word absent (default weight 0.0). -/
def exampleLexicon : List (String × ℚ) := [("love", 9 / 10), ("amazing", 9 / 10)]

/-!  Helper lemmas. -/

/-- Peeling the index 0 off a `countP` over `List.range (n + 1)`. -/
theorem countP_shift (p : Nat → Bool) (n : Nat) :
    (List.range (n + 1)).countP p =
      (if p 0 then 1 else 0) + (List.range n).countP (fun i => p (i + 1)) := by
  rw [List.range_succ_eq_map, List.countP_cons, List.countP_map]
  simp only [Function.comp_def, Nat.succ_eq_add_one]
  omega

/-- The index-based vowel-group count over the tail of a word, with the
previous character made explicit, equals the recursive count. -/
theorem vgcFrom_eq_countP (cs : List Char) (prev : Char) :
    (List.range cs.length).countP
      (fun i => isVowel (cs.getD i ' ') && !isVowel ((prev :: cs).getD i ' ')) =
      vgcFrom prev cs := by
  induction cs generalizing prev with
  | nil => simp [vgcFrom]
  | cons d ds ih =>
    rw [List.length_cons, countP_shift]
    simp only [List.getD_cons_zero, List.getD_cons_succ]
    rw [ih d]
    simp [vgcFrom, Nat.add_comm]

/-- The source's index-based vowel-group loop computes the recursive
vowel-group-start count. -/
theorem srcVG_eq_vgcRec (w : List Char) : srcVG w = vgcRec w := by
  cases w with
  | nil => simp [srcVG, vgcRec]
  | cons c cs =>
    unfold srcVG
    rw [List.length_cons, countP_shift]
    have h1 : ∀ i : Nat, ((i + 1 : Nat) == 0) = false := by intro i; simp
    simp only [List.getD_cons_zero, List.getD_cons_succ, Nat.add_sub_cancel, h1,
      Bool.false_or, beq_self_eq_true, Bool.true_or, Bool.and_true]
    rw [vgcFrom_eq_countP cs c]
    simp [vgcRec]

/-- Sentence splitting never returns an empty list (as `re.split`). -/
theorem sentSplit_ne_nil (cs : List Char) : sentSplit cs ≠ [] := by
  induction cs with
  | nil => simp [sentSplit]
  | cons c cs ih =>
    unfold sentSplit
    by_cases h : isSentDelim c = true
    · simp only [h, if_true]
      cases cs with
      | nil => simp
      | cons c2 cs2 =>
        by_cases h2 : isSentDelim c2 = true
        · simpa [h2] using ih
        · simp [h2]
    · simp only [h, if_false]
      cases hs : sentSplit cs with
      | nil => exact absurd hs ih
      | cons s ss => simp

/-- Lengths of a filter and of the complementary filter sum to the length
of the list. -/
theorem length_filter_not_add {α : Type} (l : List α) (p : α → Bool) :
    (l.filter fun a => !p a).length + (l.filter p).length = l.length := by
  induction l with
  | nil => rfl
  | cons a l ih =>
    by_cases h : p a = true <;> simp [List.filter_cons, h] <;> omega

/-- On any word where the source's trailing-"e" lookup is in bounds, the
source pre-floor accumulation agrees with the specification-side one. -/
theorem srcPreFloor_eq_specPreFloor (w : List Char)
    (h : w.getLast? ≠ some 'e' ∨ 2 ≤ w.length) :
    srcPreFloor w = specPreFloor w := by
  unfold srcPreFloor specPreFloor
  rw [srcVG_eq_vgcRec]
  rcases h with h | h
  · have hb : (w.getLast? == some 'e') = false := beq_eq_false_iff_ne.mpr h
    simp [hb]
  · by_cases he : (w.getLast? == some 'e') = true
    · have hlt : w.length - 2 < w.length := by omega
      rw [List.getD_eq_getElem?_getD, List.getElem?_eq_getElem hlt]
      simp [Option.any]
    · simp [he]

/-!  Claim theorems. -/

/-- Claim C1 (code-bug evidence).  Totality fails: `calculate_fog_index`
raises `ZeroDivisionError` on the whitespace-only text "\t" (nonempty, but
zero whitespace-split words, and the source only guards the sentence
count), and `calculate_average_syllables_per_word` raises `IndexError` on
the text "e" (through `count_syllables("e")` evaluating `word[-2]`).
Both failures are modelled as `none`. -/
theorem metric_totality_failures :
    calculate_fog_index "\t" [] = none ∧
    calculate_average_syllables_per_word "e" [] = none := by
  exact ⟨rfl, rfl⟩

/-- Claim C2 (code-bug evidence, plus the formula that survives).  On a
nonempty text whose whitespace-split word count is zero the source raises
`ZeroDivisionError` instead of returning 0.0 (shown on the text " ");
on every text with at least one raw word the claimed formula
0.4 * (total_words / total_sentences + 100 * complex_words / total_words)
holds, with total_words the raw whitespace-split token count. -/
theorem fog_index_zero_word_behavior :
    calculate_fog_index " " [] = none ∧
    ∀ (text : String) (stop : List String),
      text ≠ "" → (wsSplit (lowerL text.toList)).length ≠ 0 →
      calculate_fog_index text stop = some ((2 / 5 : ℚ) *
        (((wsSplit (lowerL text.toList)).length : ℚ) /
            ((sentSplit text.toList).length : ℚ) +
          100 * ((count_complex_words text stop : ℚ) /
            ((wsSplit (lowerL text.toList)).length : ℚ)))) := by
  refine ⟨rfl, ?_⟩
  intro text stop ht hw
  unfold calculate_fog_index
  rw [if_neg ht,
    if_neg (fun h => sentSplit_ne_nil text.toList (List.length_eq_zero.mp h)),
    if_neg hw]
  congr 1
  ring

/-- Witness for `fog_index_zero_word_behavior` at the concrete text
"x y": two raw words, one sentence, no complex word, Fog 0.8. -/
theorem fog_index_zero_word_behavior_witness :
    ("x y" : String) ≠ "" ∧ calculate_fog_index "x y" [] = some (4 / 5 : ℚ) := by
  refine ⟨by decide, ?_⟩
  rw [fog_index_zero_word_behavior.2 "x y" [] (by decide) (by decide),
    (by decide : (wsSplit (lowerL "x y".toList)).length = 2),
    (by decide : (sentSplit "x y".toList).length = 1),
    (by decide : count_complex_words "x y" [] = 0)]
  norm_num

/-- Claim C3.  Analyzing the empty string yields every metric equal to
0.0 (the two metrics that can raise are `some 0`) and the label Neutral,
for every triple of word lists. -/
theorem analyze_empty_string (stop pos neg : List String) :
    analyze "" stop pos neg =
      ⟨0, 0, some 0, 0, 0, some 0, 0, 0, 0, 0, 0, "Neutral"⟩ := by
  unfold analyze
  congr 1
  all_goals first
    | rfl
    | (rw [if_pos (by decide), (by decide : (wsSplit ("" : String).toList).length = 0)]
       norm_num)
    | (rw [if_neg (fun h => h rfl)])
    | (show analyze_sentiment (0 : ℚ) = "Neutral"
       unfold analyze_sentiment
       rw [if_neg (by norm_num), if_neg (by norm_num)])

/-- Claim C4.  Under the Counting strategy, polarity lies in [-1, 1] and
subjectivity in [0, 1], for every text and all word lists. -/
theorem counting_polarity_subjectivity_bounds
    (text : String) (stop pos neg : List String) :
    -1 ≤ (calculate_polarity_subjectivity text stop pos neg).1 ∧
    (calculate_polarity_subjectivity text stop pos neg).1 ≤ 1 ∧
    0 ≤ (calculate_polarity_subjectivity text stop pos neg).2 ∧
    (calculate_polarity_subjectivity text stop pos neg).2 ≤ 1 := by
  unfold calculate_polarity_subjectivity
  by_cases ht : text = ""
  · rw [if_pos ht]; norm_num
  · rw [if_neg ht]
    by_cases h0 : (filteredWords text stop).length = 0
    · rw [if_pos h0]; norm_num
    · rw [if_neg h0]
      have hT : (0 : ℚ) < ((filteredWords text stop).length : ℚ) := by
        exact_mod_cast Nat.pos_of_ne_zero h0
      have hp : (((filteredWords text stop).filter
          (fun w => (toL pos).contains w)).length : ℚ) ≤
          ((filteredWords text stop).length : ℚ) := by
        exact_mod_cast List.length_filter_le _ _
      have hn : (((filteredWords text stop).filter
          (fun w => (toL neg).contains w)).length : ℚ) ≤
          ((filteredWords text stop).length : ℚ) := by
        exact_mod_cast List.length_filter_le _ _
      have hp0 : (0 : ℚ) ≤ (((filteredWords text stop).filter
          (fun w => (toL pos).contains w)).length : ℚ) := by positivity
      have hn0 : (0 : ℚ) ≤ (((filteredWords text stop).filter
          (fun w => (toL neg).contains w)).length : ℚ) := by positivity
      refine ⟨?_, ?_, ?_, ?_⟩
      · show -1 ≤ _ / _
        rw [le_div_iff₀ hT]; linarith
      · show _ / _ ≤ 1
        rw [div_le_one hT]; linarith
      · show (0 : ℚ) ≤ _ / _
        positivity
      · show _ / _ ≤ (1 : ℚ)
        rw [div_self hT.ne']

/-- Claim C5.  `count_complex_words` counts exactly those
stop-word-filtered, punctuation-stripped tokens whose length exceeds 2 and
whose vowel-group-start accumulation, after the trailing-"e" decrement and
without the floor-at-1 clamp, is at least 3; in particular a two-letter
token is never counted. -/
theorem complex_word_count_characterization (text : String) (stop : List String) :
    count_complex_words text stop =
      ((filteredWords text stop).filter
        (fun w => decide (2 < w.length) && decide (3 ≤ specPreFloor w))).length := by
  unfold count_complex_words
  by_cases ht : text = ""
  · subst ht; rfl
  · rw [if_neg ht]
    congr 1
    apply List.filter_congr
    intro w _
    unfold isComplexWord
    by_cases hl : 2 < w.length
    · have hs : srcPreFloor w = specPreFloor w :=
        srcPreFloor_eq_specPreFloor w (Or.inr (by omega))
      rw [hs]
    · simp [hl]

/-- Claim C6.  Word count (stop-word filtered) plus stop-word count equals
the total number of lowercased, punctuation-stripped, whitespace-split
tokens: the two counting functions apply identical preprocessing, so they
partition one token universe. -/
theorem word_count_stop_count_partition (text : String) (stop : List String) :
    count_words text stop + count_stop_words text stop = (pyTokens text).length := by
  unfold count_words count_stop_words
  by_cases ht : text = ""
  · subst ht; rfl
  · rw [if_neg ht, if_neg ht]
    unfold filteredWords
    exact length_filter_not_add _ _

/-- Claim C7 counterexample.  On the text "I love this amazing product"
with the lexicon {love ↦ 0.9, amazing ↦ 0.9}, the spec-modelled
Weighted-Lexicon strategy does not produce 6 tokens with final score 0.3:
word-boundary tokenization yields 5 tokens, so the final score is
1.8 / 5 = 0.36. -/
theorem weighted_lexicon_example_counterexample :
    ¬((wlTokens "I love this amazing product").length = 6 ∧
      weighted_lexicon_final "I love this amazing product" exampleLexicon
        = 3 / 10) := by
  decide

/-- Claim C7 amended.  The spec-modelled Weighted-Lexicon strategy, with
negation/intensifier handling over word-boundary tokens and final score
equal to running score over token count, yields on "I love this amazing
product" with lexicon {love ↦ 0.9, amazing ↦ 0.9}: 5 tokens, raw score
1.8, final score 0.36, label Positive. -/
theorem weighted_lexicon_example_amended :
    (wlTokens "I love this amazing product").length = 5 ∧
    weighted_lexicon_raw "I love this amazing product" exampleLexicon = 9 / 5 ∧
    weighted_lexicon_final "I love this amazing product" exampleLexicon = 9 / 25 ∧
    weighted_lexicon_label "I love this amazing product" exampleLexicon
      = "Positive" := by
  have ht : (wlTokens "I love this amazing product").length = 5 := by decide
  have hraw0 : weighted_lexicon_raw "I love this amazing product" exampleLexicon
      = (9 / 10 : ℚ) + ((9 / 10 : ℚ) + 0) := rfl
  have hraw : weighted_lexicon_raw "I love this amazing product" exampleLexicon
      = 9 / 5 := by rw [hraw0]; norm_num
  have hfin : weighted_lexicon_final "I love this amazing product" exampleLexicon
      = 9 / 25 := by
    unfold weighted_lexicon_final
    rw [if_neg (by decide), hraw, ht]
    norm_num
  refine ⟨ht, hraw, hfin, ?_⟩
  unfold weighted_lexicon_label analyze_sentiment
  rw [hfin, if_pos (by norm_num)]

/-- Claim C8 (code-bug evidence, plus the floored formula that survives).
The standalone syllable estimator raises `IndexError` on the word "e"
(modelled `none`); on every word where it returns, the result is the
vowel-group-start count with the trailing-"e" decrement, floored at 1 —
hence always at least 1. -/
theorem count_syllables_floor_spec :
    count_syllables "e" = none ∧
    ∀ (w : String) (n : Int), count_syllables w = some n →
      1 ≤ n ∧ n = max 1 (specPreFloor w.toList) := by
  refine ⟨rfl, ?_⟩
  intro w n h
  unfold count_syllables countSyllablesL at h
  by_cases hg : (w.toList.getLast? == some 'e' && decide (w.toList.length < 2)) = true
  · rw [if_pos hg] at h; exact absurd h (by simp)
  · rw [if_neg hg] at h
    have hd : w.toList.getLast? ≠ some 'e' ∨ 2 ≤ w.toList.length := by
      by_cases he : w.toList.getLast? = some 'e'
      · right
        by_contra hlen
        push_neg at hlen
        apply hg
        rw [he]
        simp only [beq_self_eq_true, Bool.true_and, decide_eq_true_eq]
        exact hlen
      · left; exact he
    rw [srcPreFloor_eq_specPreFloor w.toList hd] at h
    injection h with h
    subst h
    constructor
    · split <;> omega
    · rw [max_def]; split_ifs <;> omega

/-- Witness for `count_syllables_floor_spec` at the word "happy"
(two vowel groups, no trailing-"e" decrement). -/
theorem count_syllables_floor_spec_witness :
    count_syllables "happy" = some 2 ∧ 1 ≤ (2 : Int) ∧
      (2 : Int) = max 1 (specPreFloor "happy".toList) :=
  ⟨by decide, count_syllables_floor_spec.2 "happy" 2 (by decide)⟩

/-- Claim C9.  Determinism: two runs of the full analysis on equal texts
and equal word lists return equal results; the embedded analysis is a
pure function of its arguments, with no other state. -/
theorem analyze_deterministic (t1 t2 : String) (s1 s2 p1 p2 n1 n2 : List String)
    (ht : t1 = t2) (hs : s1 = s2) (hp : p1 = p2) (hn : n1 = n2) :
    analyze t1 s1 p1 n1 = analyze t2 s2 p2 n2 := by
  subst ht; subst hs; subst hp; subst hn; rfl

/-- Witness for `analyze_deterministic` on a concrete input. -/
theorem analyze_deterministic_witness :
    analyze "good day" ["a"] ["good"] ["bad"]
      = analyze "good day" ["a"] ["good"] ["bad"] :=
  analyze_deterministic "good day" "good day" ["a"] ["a"] ["good"] ["good"]
    ["bad"] ["bad"] rfl rfl rfl rfl

/-- Claim C10.  The Counting-strategy subjectivity is two-valued: exactly
1 when at least one token survives stop-word filtering, exactly 0
otherwise; it never takes an intermediate value. -/
theorem counting_subjectivity_two_valued
    (text : String) (stop pos neg : List String) :
    (calculate_polarity_subjectivity text stop pos neg).2 =
      if filteredWords text stop = [] then 0 else 1 := by
  unfold calculate_polarity_subjectivity
  by_cases ht : text = ""
  · subst ht
    rw [if_pos rfl]
    have h : filteredWords "" stop = [] := rfl
    rw [if_pos h]
  · rw [if_neg ht]
    by_cases h0 : (filteredWords text stop).length = 0
    · rw [if_pos h0, if_pos (List.length_eq_zero.mp h0)]
    · rw [if_neg h0, if_neg (fun he => h0 (by rw [he]; rfl))]
      have hT : ((filteredWords text stop).length : ℚ) ≠ 0 := by
        exact_mod_cast h0
      exact div_self hT

end Sentiment
